import Mathlib

/-!
# lib9p: the host file-system backend (`backend/fs.c`)

A shallow embedding of the 9P op handlers of `backend/fs.c` and the
properties of the backend's specification that can be settled on them.

Conventions of the embedding

* C strings are `String` (without the terminating NUL); `asprintf("%s/%s")`
  is `++`, and so are `strcpy`/`strcat` as long as the result fits the
  destination: `fs_walk` builds its path in the stack buffer
  `name[MAXPATHLEN]` with no length check, and a string of `n` bytes fits
  it when `n < MAXPATHLEN`.  When it does not fit, the handler writes past
  the buffer and has no result: `none`.
* `uid_t`, `gid_t`, `ino_t`, `mode_t` and the 9P integers are `Nat`.
* A pointer that may be `NULL` is an `Option`.
* The host (system calls) and the user database are parameters: records of
  functions.  The handlers that can change the host (`fs_create`,
  `fs_remove`, `fs_write`, `fs_wstat`) take and return the world: the host
  state and the log of the system calls issued.  The handlers that only
  call `stat` take the host's `stat` as a function of the path.
* `l9p_respond (req, e)` is the `error` field of a handler's result.
* A handler that dereferences a `NULL` pointer has no result: `none`.
* `MAXPATHLEN` (`sys/param.h`) is a parameter of `fs_walk`.
-/

namespace Lib9p

/-! ## Constants of the included headers -/

/-- Modelled from the spec: `lib9p.h` is not in the source.  The access intent
READ, `L9P_OREAD`, with its 9P protocol value. -/
def L9P_OREAD : Nat := 0
/-- Modelled from the spec: `lib9p.h` is not in the source.  The access intent
WRITE, `L9P_OWRITE`, with its 9P protocol value. -/
def L9P_OWRITE : Nat := 1
/-- Modelled from the spec: `lib9p.h` is not in the source.  The access intent
RDWR, `L9P_ORDWR`, with its 9P protocol value. -/
def L9P_ORDWR : Nat := 2
/-- Modelled from the spec: `lib9p.h` is not in the source.  The access intent
EXEC, `L9P_OEXEC`, with its 9P protocol value. -/
def L9P_OEXEC : Nat := 3
/-- Modelled from the spec: `lib9p.h` is not in the source.  The qid type bit
DIR, `L9P_QTDIR`, with its 9P protocol value. -/
def L9P_QTDIR : Nat := 0x80
/-- Modelled from the spec: `lib9p.h` is not in the source.  The mode bit
`DMDIR`, `L9P_DMDIR`, with its 9P protocol value. -/
def L9P_DMDIR : Nat := 0x80000000
/-- Modelled from the spec: `lib9p.h` is not in the source.  The protocol
variant 9P2000, `L9P_2000`, the least of `enum l9p_version`. -/
def L9P_2000 : Nat := 0
/-- Modelled from the spec: `lib9p.h` is not in the source.  The protocol
variant 9P2000.u, `L9P_2000U`, next after `L9P_2000`. -/
def L9P_2000U : Nat := 1

/-- The value `(uid_t)-1`, also `(uint32_t)~0`: all ones in 32 bits. -/
def NOID32 : Nat := 2 ^ 32 - 1
/-- The value `(uint64_t)~0`: all ones in 64 bits. -/
def NOID64 : Nat := 2 ^ 64 - 1

def S_IFMT : Nat := 0o170000
def S_IFDIR : Nat := 0o040000
def S_IRUSR : Nat := 0o400
def S_IWUSR : Nat := 0o200
def S_IXUSR : Nat := 0o100
def S_IRGRP : Nat := 0o040
def S_IWGRP : Nat := 0o020
def S_IXGRP : Nat := 0o010
def S_IROTH : Nat := 0o004
def S_IWOTH : Nat := 0o002
def S_IXOTH : Nat := 0o001

/-- The macro `S_ISDIR (m)` of `sys/stat.h`. -/
def S_ISDIR (m : Nat) : Bool := m &&& S_IFMT == S_IFDIR

/-- The value of `EPERM` in `errno.h`. -/
def EPERM : Nat := 1
/-- The value of `ENOENT` in `errno.h`. -/
def ENOENT : Nat := 2
/-- The value of `EROFS` in `errno.h`. -/
def EROFS : Nat := 30

/-- The flag `O_CREAT` of `fcntl.h` (its value on Linux; no property below
depends on it). -/
def O_CREAT : Nat := 0o100
/-- The flag `O_TRUNC` of `fcntl.h` (its value on Linux; no property below
depends on it). -/
def O_TRUNC : Nat := 0o1000

/-! ## Data model -/

/-- The fields of the host `struct stat` that the backend reads. -/
structure stat where
  st_ino : Nat
  st_mode : Nat
  st_uid : Nat
  st_gid : Nat
  st_atime : Nat
  st_mtime : Nat
  st_size : Nat
deriving DecidableEq, Repr

/-- The fields of `struct passwd` that the backend reads. -/
structure passwd where
  pw_name : String
  pw_uid : Nat
  pw_gid : Nat
deriving DecidableEq, Repr

/-- The field of `struct group` that the backend reads. -/
structure group where
  gr_name : String
deriving DecidableEq, Repr

/-- The host user database.  `getpwuid`, `getgrgid` return `none` for `NULL`;
`getgrouplist name gid` is the contents `groups[0 .. ngroups)` left by the
call `getgrouplist (name, gid, groups, &ngroups)`.  `getpwnam` is not called
by the backend; it is here for the statements that speak of a lookup by
name. -/
structure userdb where
  getpwuid : Nat → Option passwd
  getgrgid : Nat → Option group
  getgrouplist : String → Nat → List Nat
  getpwnam : String → Option passwd

/-- Modelled from the spec: `lib9p.h` is not in the source.  The qid
`{type, version, path-id}`, `struct l9p_qid`, with the field names the
source uses. -/
structure l9p_qid where
  type : Nat
  version : Nat
  path : Nat
deriving DecidableEq, Repr

/-- Modelled from the spec: `lib9p.h` is not in the source.  The 9P stat
record, `struct l9p_stat`, with the fields the source assigns. -/
structure l9p_stat where
  type : Nat
  dev : Nat
  qid : l9p_qid
  mode : Nat
  atime : Nat
  mtime : Nat
  length : Nat
  name : String
  uid : String
  gid : String
  muid : String
  n_uid : Nat
  n_gid : Nat
  n_muid : Nat
deriving DecidableEq, Repr

/-- A directory entry, `struct dirent`. -/
structure dirent where
  d_name : String
deriving DecidableEq, Repr

/-- A directory stream, `DIR`: the entries of the directory and a cursor,
the index of the entry the next `readdir` returns. -/
structure DIR where
  entries : List dirent
  loc : Nat
deriving DecidableEq, Repr

/-- The backend's per-fid state, `struct openfile`. -/
structure openfile where
  dir : Option DIR
  fd : Int
  name : String
  uid : Nat
  gid : Nat
deriving DecidableEq, Repr

/-- The backend configuration, `struct fs_softc` (the list of auxiliary
trees is used by no handler). -/
structure fs_softc where
  fs_rootpath : String
  fs_readonly : Bool
deriving DecidableEq, Repr

/-- Modelled from the spec: `lib9p.h` is not in the source.  The session
layer's fid object, `struct l9p_openfile`: the fields the backend touches. -/
structure l9p_openfile where
  lo_aux : Option openfile
  lo_qid : l9p_qid
deriving DecidableEq, Repr

/-! ## `open_fid`, `generate_qid`, `dostat` -/

/-- The function `open_fid (path)`: a zeroed `struct openfile` (`l9p_calloc`) with
`fd = -1` and `name = strdup (path)`. -/
def open_fid (path : String) : openfile :=
  { dir := none, fd := -1, name := path, uid := 0, gid := 0 }

/-- The function `generate_qid (buf, qid)`: `path` and `version` are assigned; `type` is
only or-ed with `L9P_QTDIR`, so it keeps what `*qid` held before. -/
def generate_qid (buf : stat) (qid : l9p_qid) : l9p_qid :=
  let qid := { qid with path := buf.st_ino }
  let qid := { qid with version := 0 }
  if S_ISDIR buf.st_mode then { qid with type := qid.type ||| L9P_QTDIR } else qid

/-- The function `dostat (s, name, buf)`: the record `*s` after the call.
The fields `atime` and `mtime` of the record are 32 bits wide. -/
def dostat (db : userdb) (s : l9p_stat) (name : String) (buf : stat) : l9p_stat :=
  let user := db.getpwuid buf.st_uid
  let group := db.getgrgid buf.st_gid
  let s := { s with qid := generate_qid buf s.qid }
  let s := { s with type := 0 }
  let s := { s with dev := 0 }
  let s := { s with mode := buf.st_mode &&& 0o777 }
  let s := if S_ISDIR buf.st_mode then { s with mode := s.mode ||| L9P_DMDIR } else s
  let s := { s with atime := buf.st_atime % 2 ^ 32 }
  let s := { s with mtime := buf.st_mtime % 2 ^ 32 }
  let s := { s with length := buf.st_size }
  let s := { s with name := name }
  let s := { s with uid := match user with | some u => u.pw_name | none => "" }
  let s := { s with gid := match group with | some g => g.gr_name | none => "" }
  let s := { s with muid := match user with | some u => u.pw_name | none => "" }
  let s := { s with n_uid := buf.st_uid }
  let s := { s with n_gid := buf.st_gid }
  { s with n_muid := buf.st_uid }

/-! ## `check_access` -/

/-- The loop `for (i = 0; i < ngroups; i++)` of `check_access` over
`groups[0 .. ngroups)`. -/
def check_access_groups (st : stat) (amode : Nat) : List Nat → Bool
  | [] => false
  | g :: groups =>
    if st.st_gid = g then
      if amode = L9P_OREAD ∧ st.st_mode &&& S_IRGRP ≠ 0 then true
      else if amode = L9P_OWRITE ∧ st.st_mode &&& S_IWGRP ≠ 0 then true
      else if amode = L9P_OEXEC ∧ st.st_mode &&& S_IXGRP ≠ 0 then true
      else check_access_groups st amode groups
    else check_access_groups st amode groups

/-- The function `check_access (st, uid, amode)`.  The result is `none` when `getpwuid`
returns `NULL`, which the source dereferences (`pwd->pw_name`). -/
def check_access (db : userdb) (st : stat) (uid : Nat) (amode : Nat) : Option Bool :=
  if uid = 0 then some true
  else if st.st_uid = uid ∧ amode = L9P_OREAD ∧ st.st_mode &&& S_IRUSR ≠ 0 then some true
  else if st.st_uid = uid ∧ amode = L9P_OWRITE ∧ st.st_mode &&& S_IWUSR ≠ 0 then some true
  else if st.st_uid = uid ∧ amode = L9P_OEXEC ∧ st.st_mode &&& S_IXUSR ≠ 0 then some true
  -- Check for "other" access
  else if amode = L9P_OREAD ∧ st.st_mode &&& S_IROTH ≠ 0 then some true
  else if amode = L9P_OWRITE ∧ st.st_mode &&& S_IWOTH ≠ 0 then some true
  else if amode = L9P_OEXEC ∧ st.st_mode &&& S_IXOTH ≠ 0 then some true
  -- Check for group access
  else
    match db.getpwuid uid with
    | none => none
    | some pwd => some (check_access_groups st amode (db.getgrouplist pwd.pw_name pwd.pw_gid))

/-! ## The host -/

/-- A system call issued by a handler, as recorded in the log. -/
inductive syscall where
  | stat (path : String)
  | mkdir (path : String) (mode : Nat)
  | sys_open (path : String) (flags : Nat) (perm : Nat)
  | chown (path : String) (uid : Nat) (gid : Nat)
  | unlink (path : String)
  | rename (old : String) (new : String)
  | writev (fd : Int) (data : List Nat)
deriving DecidableEq, Repr

/-- The host system calls over a host state `H`.  `stat` returns `errno` or
the filled buffer; `sys_open` is `open (2)` and returns the descriptor, `-1`
on failure; `chown` and `unlink` return `errno` when they return non-zero;
the results of `mkdir` and `rename` are ignored by the source; `writev`
returns the byte count or `-1`; `dirname` is the libc function: it returns
its result and the contents of its argument buffer after the call (some
libcs cut the argument in place, others leave it). -/
structure hostops (H : Type) where
  stat : H → String → Except Nat stat
  mkdir : H → String → Nat → H
  sys_open : H → String → Nat → Nat → H × Int
  chown : H → String → Nat → Nat → H × Option Nat
  unlink : H → String → H × Option Nat
  rename : H → String → String → H
  writev : H → Int → List Nat → H × Int
  dirname : String → String × String

/-- The host state together with the log of the system calls issued so far. -/
structure world (H : Type) where
  host : H
  log : List syscall

/-! ## `fs_attach` -/

/-- Modelled from the spec: `lib9p.h` is not in the source.  The request
body of `attach (fid, uname, n_uname, aname)`, `lr_req.tattach`. -/
structure tattach where
  uname : String
  aname : String
  n_uname : Nat
deriving DecidableEq, Repr

/-- What `fs_attach` leaves: the reply code, the fid object and
`lr_resp.rattach.qid`. -/
structure attach_result where
  error : Nat
  fid : l9p_openfile
  qid : l9p_qid
deriving DecidableEq, Repr

/-- The handler `fs_attach`.  `lc_version` is `req->lr_conn->lc_version`,
`fid` is `*req->lr_fid` and `fid_addr` is the pointer `req->lr_fid` as an
integer.  `lo_aux` points to `file`, so the later stores to `file->uid` and
`file->gid` are seen through it. -/
def fs_attach (sc : fs_softc) (db : userdb) (lc_version : Nat) (fid : l9p_openfile)
    (fid_addr : Nat) (req : tattach) : attach_result :=
  let file := open_fid sc.fs_rootpath
  let lo_qid := { fid.lo_qid with type := L9P_QTDIR }
  let lo_qid := { lo_qid with path := fid_addr }
  let uid := req.n_uname
  if lc_version ≥ L9P_2000U ∧ uid ≠ NOID32 then
    match db.getpwuid uid with
    | none => { error := EPERM, fid := { lo_aux := some file, lo_qid := lo_qid }, qid := lo_qid }
    | some pwd =>
      let file := { file with uid := pwd.pw_uid }
      let file := { file with gid := pwd.pw_gid }
      { error := 0, fid := { lo_aux := some file, lo_qid := lo_qid }, qid := lo_qid }
  else
    { error := 0, fid := { lo_aux := some file, lo_qid := lo_qid }, qid := lo_qid }

/-! ## `fs_walk` -/

/-- Modelled from the spec: `lib9p.h` is not in the source.  The reply body
of a walk, `lr_resp.rwalk`: `nwqid` and the array `wqid`. -/
structure rwalk where
  nwqid : Nat
  wqid : Nat → l9p_qid

/-- The state of `fs_walk` when its `for` loop is left: `failed` when a
`stat` failed, the index `i`, the path buffer `name` and the array `wqid`. -/
structure walk_loop where
  failed : Bool
  i : Nat
  name : String
  wqid : Nat → l9p_qid

/-- The loop `for (i = 0; i < nwname; i++)` of `fs_walk`, over the
components `wname[i ..]`.  Each `strcat` into `name[MAXPATHLEN]` is
unchecked: when the string it builds has `MAXPATHLEN` bytes or more it
writes past the buffer, before the `stat`, and there is no result.  The qid
type is the source expression `buf.st_mode & S_IFMT >> 8`, in which `>>`
binds tighter than `&`. -/
def fs_walk_loop (MAXPATHLEN : Nat) (hstat : String → Except Nat stat) :
    List String → Nat → String → (Nat → l9p_qid) → Option walk_loop
  | [], i, name, wqid => some { failed := false, i := i, name := name, wqid := wqid }
  | w :: wname, i, name, wqid =>
    let name := name ++ "/"
    if name.utf8ByteSize ≥ MAXPATHLEN then none
    else
      let name := name ++ w
      if name.utf8ByteSize ≥ MAXPATHLEN then none
      else
        match hstat name with
        | .error _ => some { failed := true, i := i, name := name, wqid := wqid }
        | .ok buf =>
          let q := { wqid i with type := buf.st_mode &&& (S_IFMT >>> 8) }
          let q := { q with path := buf.st_ino }
          fs_walk_loop MAXPATHLEN hstat wname (i + 1) name (Function.update wqid i q)

/-- What `fs_walk` leaves: the reply code, the object `*req->lr_newfid` and
`lr_resp.rwalk`. -/
structure walk_result where
  error : Nat
  newfid : l9p_openfile
  resp : rwalk

/-- The handler `fs_walk`.  `file` is `req->lr_fid->lo_aux`, `newfid` is
`*req->lr_newfid`, `wname` is `twalk.wname[0 .. nwname)` and `resp` is
`lr_resp.rwalk` as it is when the handler is entered.  The result is `none`
when `strcpy (name, file->name)` or a `strcat` of the loop writes past
`name[MAXPATHLEN]`. -/
def fs_walk (MAXPATHLEN : Nat) (hstat : String → Except Nat stat) (file : openfile)
    (newfid : l9p_openfile) (wname : List String) (resp : rwalk) : Option walk_result :=
  if file.name.utf8ByteSize ≥ MAXPATHLEN then none
  else
    match fs_walk_loop MAXPATHLEN hstat wname 0 file.name resp.wqid with
    | none => none
    | some l =>
      if l.failed then
        some { error := ENOENT, newfid := newfid, resp := { resp with wqid := l.wqid } }
      else
        let newfile := open_fid l.name
        let newfile := { newfile with uid := file.uid }
        some { error := 0, newfid := { newfid with lo_aux := some newfile },
               resp := { nwqid := l.i, wqid := l.wqid } }

/-! ## `fs_create`, `fs_remove`, `fs_write`, `fs_wstat` -/

/-- The call `stat (path, &st)`, logged. -/
def sys_stat {H : Type} (ops : hostops H) (w : world H) (path : String) :
    Except Nat stat × world H :=
  (ops.stat w.host path, { w with log := w.log ++ [syscall.stat path] })

/-- The call `mkdir (path, mode)`, logged. -/
def sys_mkdir {H : Type} (ops : hostops H) (w : world H) (path : String) (mode : Nat) :
    world H :=
  { host := ops.mkdir w.host path mode, log := w.log ++ [syscall.mkdir path mode] }

/-- The call `open (path, flags, perm)`, logged. -/
def sys_open {H : Type} (ops : hostops H) (w : world H) (path : String) (flags perm : Nat) :
    Int × world H :=
  ((ops.sys_open w.host path flags perm).2,
    { host := (ops.sys_open w.host path flags perm).1,
      log := w.log ++ [syscall.sys_open path flags perm] })

/-- The call `chown (path, uid, gid)`, logged. -/
def sys_chown {H : Type} (ops : hostops H) (w : world H) (path : String) (uid gid : Nat) :
    Option Nat × world H :=
  ((ops.chown w.host path uid gid).2,
    { host := (ops.chown w.host path uid gid).1, log := w.log ++ [syscall.chown path uid gid] })

/-- The call `unlink (path)`, logged. -/
def sys_unlink {H : Type} (ops : hostops H) (w : world H) (path : String) :
    Option Nat × world H :=
  ((ops.unlink w.host path).2,
    { host := (ops.unlink w.host path).1, log := w.log ++ [syscall.unlink path] })

/-- The call `rename (old, new)`, logged. -/
def sys_rename {H : Type} (ops : hostops H) (w : world H) (old new : String) : world H :=
  { host := ops.rename w.host old new, log := w.log ++ [syscall.rename old new] }

/-- The call `writev (fd, iov, niov)`, logged. -/
def sys_writev {H : Type} (ops : hostops H) (w : world H) (fd : Int) (data : List Nat) :
    Int × world H :=
  ((ops.writev w.host fd data).2,
    { host := (ops.writev w.host fd data).1, log := w.log ++ [syscall.writev fd data] })

/-- What a handler leaves: the reply code, the fid state `*file`, the world
and, for `fs_write`, `lr_resp.io.count` when it was assigned. -/
structure fs_result (H : Type) where
  error : Nat
  file : openfile
  world : world H
  count : Option Int

/-- Modelled from the spec: `lib9p.h` is not in the source.  The request
body of `create (fid, name, perm, mode)`, `lr_req.tcreate`. -/
structure tcreate where
  name : String
  perm : Nat
  mode : Nat
deriving DecidableEq, Repr

/-- The handler `fs_create`; `none` when `check_access` has no result. -/
def fs_create {H : Type} (ops : hostops H) (db : userdb) (sc : fs_softc) (req : tcreate)
    (file : openfile) (w : world H) : Option (fs_result H) :=
  if sc.fs_readonly then
    some { error := EROFS, file := file, world := w, count := none }
  else
    let newname := file.name ++ "/" ++ req.name
    match sys_stat ops w file.name with
    | (.error errno, w) => some { error := errno, file := file, world := w, count := none }
    | (.ok st, w) =>
      match check_access db st file.uid L9P_OWRITE with
      | none => none
      | some false => some { error := EPERM, file := file, world := w, count := none }
      | some true =>
        let r : openfile × world H :=
          if req.perm &&& L9P_DMDIR ≠ 0 then
            (file, sys_mkdir ops w newname 0o777)
          else
            let o := sys_open ops w newname (O_CREAT ||| O_TRUNC ||| req.mode) req.perm
            ({ file with fd := o.1 }, o.2)
        match sys_chown ops r.2 newname file.uid file.gid with
        | (some errno, w) => some { error := errno, file := r.1, world := w, count := none }
        | (none, w) => some { error := 0, file := r.1, world := w, count := none }

/-- The handler `fs_remove`; `none` when `check_access` has no result. -/
def fs_remove {H : Type} (ops : hostops H) (db : userdb) (sc : fs_softc)
    (file : openfile) (w : world H) : Option (fs_result H) :=
  if sc.fs_readonly then
    some { error := EROFS, file := file, world := w, count := none }
  else
    match sys_stat ops w file.name with
    | (.error errno, w) => some { error := errno, file := file, world := w, count := none }
    | (.ok st, w) =>
      match check_access db st file.uid L9P_OWRITE with
      | none => none
      | some false => some { error := EPERM, file := file, world := w, count := none }
      | some true =>
        match sys_unlink ops w file.name with
        | (some errno, w) => some { error := errno, file := file, world := w, count := none }
        | (none, w) => some { error := 0, file := file, world := w, count := none }

/-- Modelled from the spec: the wire codec's `l9p_truncate_iov` is not in the
source; per the spec it truncates the iovec window to `count` bytes.  The
window is the list of its bytes. -/
def l9p_truncate_iov (iov : List Nat) (count : Nat) : List Nat :=
  iov.take count

/-- The handler `fs_write`; `iov` is the data window and `count` is
`lr_req.io.count`.  The result of `writev` is stored in the 32-bit
`lr_resp.io.count`. -/
def fs_write {H : Type} (ops : hostops H) (sc : fs_softc) (iov : List Nat) (count : Nat)
    (file : openfile) (w : world H) : fs_result H :=
  if sc.fs_readonly then
    { error := EROFS, file := file, world := w, count := none }
  else
    let o := sys_writev ops w file.fd (l9p_truncate_iov iov count)
    { error := 0, file := file, world := o.2, count := some (o.1 % 2 ^ 32) }

/-- The handler `fs_wstat`; `l9stat` is `lr_req.twstat.stat`.  The branches
on `atime`, `length`, `n_uid` and `n_gid` are empty in the source.
`dirname` is handed the buffer `file->name` itself, so `file->name` is what
`dirname` leaves in it, also as the first argument of `rename`. -/
def fs_wstat {H : Type} (ops : hostops H) (sc : fs_softc) (l9stat : l9p_stat)
    (file : openfile) (w : world H) : fs_result H :=
  if sc.fs_readonly then
    { error := EROFS, file := file, world := w, count := none }
  else if l9stat.dev ≠ NOID32 then
    { error := EPERM, file := file, world := w, count := none }
  else if l9stat.name.length > 0 then
    let d := ops.dirname file.name
    let dir := d.1
    let file := { file with name := d.2 }
    let newname := dir ++ "/" ++ l9stat.name
    { error := 0, file := file, world := sys_rename ops w file.name newname, count := none }
  else
    { error := 0, file := file, world := w, count := none }

/-! ## `fs_read` on an open directory -/

/-- The part of a read request that the stat packer works on: the window
size `lr_req.io.count`, the bytes used so far and the records packed so
far, in order. -/
structure read_req where
  count : Nat
  used : Nat
  packed : List l9p_stat
deriving DecidableEq, Repr

/-- Modelled from the spec: the wire codec's stat packer `l9p_pack_stat` is
not in the source; per the spec it serializes a record into the read buffer
and signals overflow, failing exactly when the record does not fit in the
remaining window.  `sz` is the wire size of a record. -/
def l9p_pack_stat (sz : l9p_stat → Nat) (req : read_req) (s : l9p_stat) : Int × read_req :=
  if req.used + sz s ≤ req.count then
    (0, { req with used := req.used + sz s, packed := req.packed ++ [s] })
  else
    (-1, req)

/-- The state of `fs_read` when its `for (;;)` loop is left. -/
structure read_loop where
  dir : DIR
  st : stat
  l9stat : l9p_stat
  req : read_req
deriving DecidableEq, Repr

/-- The loop `for (;;)` of `fs_read` on a directory stream.  `pending` is the
list of entries from the cursor on: `readdir` returns its head and advances
the cursor, and returns `NULL` when it is empty.  The result of `stat` is
not inspected; when it fails the buffer `st` keeps its contents.  The
locals `st` and `l9stat` live across iterations.  `seekdir` is the host's. -/
def fs_read_loop (db : userdb) (hstat : String → Except Nat stat) (sz : l9p_stat → Nat)
    (seekdir : DIR → Int → DIR) :
    List dirent → DIR → stat → l9p_stat → read_req → read_loop
  | [], dir, st, l9stat, req => { dir := dir, st := st, l9stat := l9stat, req := req }
  | d :: pending, dir, st, l9stat, req =>
    let dir := { dir with loc := dir.loc + 1 }
    let st := match hstat d.d_name with | .ok buf => buf | .error _ => st
    let l9stat := dostat db l9stat d.d_name st
    if (l9p_pack_stat sz req l9stat).1 ≠ 0 then
      { dir := seekdir dir (-1), st := st, l9stat := l9stat, req := req }
    else
      fs_read_loop db hstat sz seekdir pending dir st l9stat (l9p_pack_stat sz req l9stat).2

/-- What `fs_read` leaves on a directory: the reply code, the fid state and
the request with the packed records. -/
structure read_result where
  error : Nat
  file : openfile
  req : read_req
deriving DecidableEq, Repr

/-- The handler `fs_read`, branch `file->dir != NULL`; `dir` is the stream
`*file->dir` and `st`, `l9stat` are the contents of the uninitialised
locals. -/
def fs_read_dir (db : userdb) (hstat : String → Except Nat stat) (sz : l9p_stat → Nat)
    (seekdir : DIR → Int → DIR) (file : openfile) (dir : DIR) (st : stat) (l9stat : l9p_stat)
    (req : read_req) : read_result :=
  let l := fs_read_loop db hstat sz seekdir (dir.entries.drop dir.loc) dir st l9stat req
  { error := 0, file := { file with dir := some l.dir }, req := l.req }

/-! ## The session layer: fid table and dispatch -/

/-- Modelled from the spec: the session layer is not in the source; per the
spec it owns the fid table (binding a new fid, looking up a fid).  The table
maps a fid number to its fid object. -/
abbrev fid_table := Nat → Option l9p_openfile

/-- A zeroed fid object, as the session layer allocates it. -/
def fresh_fid : l9p_openfile :=
  { lo_aux := none, lo_qid := { type := 0, version := 0, path := 0 } }

/-- A zeroed reply body `lr_resp.rwalk`. -/
def fresh_rwalk : rwalk :=
  { nwqid := 0, wqid := fun _ => { type := 0, version := 0, path := 0 } }

/-- The requests that create fids. -/
inductive request where
  | attach (fid : Nat) (fid_addr : Nat) (lc_version : Nat) (req : tattach)
  | walk (fid : Nat) (newfid : Nat) (wname : List String)
deriving DecidableEq, Repr

/-- Modelled from the spec: the session layer's dispatch of `Tattach` and
`Twalk` is not in the source.  It allocates the fid object, calls the
handler and keeps the object the handler leaves; a walk that fails leaves
the table as it was; a walk from a fid that has no backend state is not
handed to the backend (no reply code).  The table refuses nothing else, so
that every sequence of requests is covered.  There is no result when the
handler has none. -/
def dispatch (MAXPATHLEN : Nat) (sc : fs_softc) (db : userdb)
    (hstat : String → Except Nat stat) (t : fid_table) :
    request → Option (fid_table × Option Nat)
  | .attach fid fid_addr lc_version req =>
    let r := fs_attach sc db lc_version fresh_fid fid_addr req
    some (Function.update t fid (some r.fid), some r.error)
  | .walk fid newfid wname =>
    match t fid with
    | none => some (t, none)
    | some fo =>
      match fo.lo_aux with
      | none => some (t, none)
      | some file =>
        let nf := if newfid = fid then fo else fresh_fid
        match fs_walk MAXPATHLEN hstat file nf wname fresh_rwalk with
        | none => none
        | some r =>
          if r.error = 0 then some (Function.update t newfid (some r.newfid), some 0)
          else some (t, some r.error)

/-- The table after a sequence of requests; no result when a handler has
none. -/
def serve (MAXPATHLEN : Nat) (sc : fs_softc) (db : userdb)
    (hstat : String → Except Nat stat) : fid_table → List request → Option fid_table
  | t, [] => some t
  | t, r :: rs =>
    match dispatch MAXPATHLEN sc db hstat t r with
    | none => none
    | some d => serve MAXPATHLEN sc db hstat d.1 rs

/-- The path `fs_walk` builds from `base` and the components `ws`: each
component is appended after a separator, nothing is resolved. -/
def walk_path (base : String) : List String → String
  | [] => base
  | w :: ws => walk_path (base ++ "/" ++ w) ws

/-- Every component of the walk exists on the host: `stat` succeeds on the
path joined up to each component. -/
def walk_present (hstat : String → Except Nat stat) (base : String) (wname : List String) :
    Prop :=
  ∀ k, k < wname.length → ∃ buf, hstat (walk_path base (wname.take (k + 1))) = .ok buf

/-- The component lists that the requests can have led a fid to, read off
the requests alone: an attach leads its fid to the empty list; a walk leads
its new fid to the components of its source fid followed by the walk's own
components, or, when the walk fails, leaves the new fid where it was. -/
def walked_step (c : Nat → List (List String)) : request → Nat → List (List String)
  | .attach fid _ _ _ => Function.update c fid [[]]
  | .walk fid newfid wname =>
    Function.update c newfid (c newfid ++ (c fid).map fun ws => ws ++ wname)

/-- The component lists per fid after a sequence of requests, from `c`. -/
def walked_from : (Nat → List (List String)) → List request → Nat → List (List String)
  | c, [] => c
  | c, r :: rs => walked_from (walked_step c r) rs

/-- The component lists per fid after a sequence of requests on the empty
table. -/
def walked_components (reqs : List request) : Nat → List (List String) :=
  walked_from (fun _ => []) reqs

/-! ## Definitions that follow the specification's words -/

/-- Spec-side: every permission bit that the access intent `amode` asks for
is set in `mode`, for the class whose read, write and execute bits are `r`,
`w`, `x`: `READ` asks for `r`, `WRITE` for `w`, `EXEC` for `x` and `RDWR`
for `r` and `w`. -/
def spec_class_allows (mode amode r w x : Nat) : Prop :=
  (amode = L9P_OREAD → mode &&& r ≠ 0) ∧ (amode = L9P_OWRITE → mode &&& w ≠ 0) ∧
  (amode = L9P_OEXEC → mode &&& x ≠ 0) ∧
  (amode = L9P_ORDWR → mode &&& r ≠ 0 ∧ mode &&& w ≠ 0)

instance (mode amode r w x : Nat) : Decidable (spec_class_allows mode amode r w x) := by
  unfold spec_class_allows
  infer_instance

/-- Spec-side: the permission evaluator of the specification for a uid other
than 0.  One class is selected: the user bits for the owner, otherwise the
group bits when the file's gid is in `groups`, otherwise the other bits. -/
def spec_check_access (st : stat) (uid : Nat) (groups : List Nat) (amode : Nat) : Prop :=
  if st.st_uid = uid then spec_class_allows st.st_mode amode S_IRUSR S_IWUSR S_IXUSR
  else if st.st_gid ∈ groups then spec_class_allows st.st_mode amode S_IRGRP S_IWGRP S_IXGRP
  else spec_class_allows st.st_mode amode S_IROTH S_IWOTH S_IXOTH

instance (st : stat) (uid : Nat) (groups : List Nat) (amode : Nat) :
    Decidable (spec_check_access st uid groups amode) := by
  unfold spec_check_access
  infer_instance

/-! ## A small concrete host, for evaluation -/

/-- A user database with the single user `u` (uid 1000, gid 1000, in group
1000 only). -/
def demo_db : userdb :=
  { getpwuid := fun u => if u = 1000 then some ⟨"u", 1000, 1000⟩ else none
    getgrgid := fun g => if g = 1000 then some ⟨"u"⟩ else none
    getgrouplist := fun _ g => [g]
    getpwnam := fun n => if n = "u" then some ⟨"u", 1000, 1000⟩ else none }

/-- A host `struct stat` with the given inode, mode, owner and group. -/
def demo_stat (ino mode uid gid : Nat) : stat :=
  { st_ino := ino, st_mode := mode, st_uid := uid, st_gid := gid,
    st_atime := 0, st_mtime := 0, st_size := 0 }


/-- The host tree of the specification's scenarios, as seen by `stat`: the
directory `/tmp/root` holding the directory `a` (mode 0555) holding the
regular file `b.txt` (mode 0644); `/tmp/root/..` is the directory `/tmp`
and `/tmp/root/a/..` is `/tmp/root`.  Every other path does not exist. -/
def demo_hstat (path : String) : Except Nat stat :=
  if path = "/tmp/root" then .ok (demo_stat 2 0o040755 1000 1000)
  else if path = "/tmp/root/.." then .ok (demo_stat 1 0o041777 0 0)
  else if path = "/tmp/root/a" then .ok (demo_stat 3 0o040555 1000 1000)
  else if path = "/tmp/root/a/.." then .ok (demo_stat 2 0o040755 1000 1000)
  else if path = "/tmp/root/a/b.txt" then .ok (demo_stat 4 0o100644 1000 1000)
  else .error ENOENT

/-- The backend rooted at `/tmp/root`, not read-only (as
`l9p_backend_fs_init` builds it). -/
def demo_sc : fs_softc :=
  { fs_rootpath := "/tmp/root", fs_readonly := false }

/-- The empty fid table. -/
def empty_table : fid_table := fun _ => none

/-- Spec-side: the components of a path, split at the separator. -/
def spec_split : List Char → List (List Char)
  | [] => [[]]
  | c :: cs =>
    if c = '/' then [] :: spec_split cs
    else
      match spec_split cs with
      | [] => [[c]]
      | x :: xs => (c :: x) :: xs

/-- Spec-side: one step of canonicalization: an empty component and `.`
yield the same node, `..` drops the last component, any other component is
appended. -/
def spec_resolve_step (acc : List String) (comp : List Char) : List String :=
  if comp = [] then acc
  else if comp = ['.'] then acc
  else if comp = ['.', '.'] then acc.dropLast
  else acc ++ [String.mk comp]

/-- Spec-side: the canonical form of a path: its components after `.` and
`..` are resolved. -/
def spec_canonical (path : String) : List String :=
  (spec_split path.data).foldl spec_resolve_step []

/-- Spec-side: root confinement of the specification: the path has the
configured root as a prefix after canonicalization. -/
def spec_confined (root path : String) : Bool :=
  (spec_canonical root).isPrefixOf (spec_canonical path)

/-- The state of the root fid of user `u` in the scenarios. -/
def demo_rootfile : openfile :=
  { dir := none, fd := -1, name := "/tmp/root", uid := 1000, gid := 1000 }

/-- A concrete host state: the existing paths with their `struct stat`. -/
abbrev demo_host := List (String × stat)

/-- System calls over `demo_host`: `mkdir` and a creating `open` add a
path, `chown` sets owner and group, `unlink` drops a path, `rename` moves
one, `writev` reports the bytes as written. -/
def demo_ops : hostops demo_host :=
  { stat := fun h p => match h.lookup p with | some st => .ok st | none => .error ENOENT
    mkdir := fun h p m => h ++ [(p, demo_stat (h.length + 2) (S_IFDIR ||| m) 0 0)]
    sys_open := fun h p flags perm =>
      if h.lookup p = none ∧ flags &&& O_CREAT ≠ 0 then
        (h ++ [(p, demo_stat (h.length + 2) (0o100000 ||| perm) 0 0)], 3)
      else if h.lookup p = none then (h, -1)
      else (h, 3)
    chown := fun h p uid gid =>
      if h.lookup p = none then (h, some ENOENT)
      else (h.map fun e => if e.1 = p then (e.1, { e.2 with st_uid := uid, st_gid := gid })
        else e, none)
    unlink := fun h p =>
      if h.lookup p = none then (h, some ENOENT) else (h.filter fun e => e.1 ≠ p, none)
    rename := fun h old new => h.map fun e => if e.1 = old then (new, e.2) else e
    writev := fun h _ data => (h, data.length)
    dirname := fun p => ("/tmp/root", p) }

/-- The host of the scenarios: `/tmp/root` (mode 0755, owner 1000) holding
the directory `a`. -/
def demo_world : world demo_host :=
  { host := [("/tmp/root", demo_stat 2 0o040755 1000 1000),
             ("/tmp/root/a", demo_stat 3 0o040555 1000 1000)],
    log := [] }

/-- A `seekdir` that ignores a location that `telldir` never returned (the
stream has locations 0 .. number of entries) and otherwise sets the cursor. -/
def seekdir_ignore (d : DIR) (loc : Int) : DIR :=
  if 0 ≤ loc ∧ loc ≤ d.entries.length then { d with loc := loc.toNat } else d

/-- A `seekdir` with absolute positioning: the new cursor `pos loc` depends
on the location only, not on where the stream stands. -/
def seekdir_absolute (pos : Int → Nat) (d : DIR) (loc : Int) : DIR :=
  { d with loc := pos loc }

/-- The entries of the directory read in the scenarios. -/
def demo_entries : List dirent := [⟨"a"⟩, ⟨"b.txt"⟩, ⟨"c.txt"⟩]

/-- The host `stat` of the entries' names: `a` is a directory, the others
are regular files. -/
def demo_hstat_cwd (path : String) : Except Nat stat :=
  if path = "a" then .ok (demo_stat 3 0o040555 1000 1000)
  else if path = "b.txt" then .ok (demo_stat 4 0o100644 1000 1000)
  else if path = "c.txt" then .ok (demo_stat 5 0o100644 1000 1000)
  else .error ENOENT

/-- The contents of a zeroed local `st`. -/
def zero_stat : stat := demo_stat 0 0 0 0

/-- The contents of a zeroed local `l9stat`. -/
def zero_l9stat : l9p_stat :=
  { type := 0, dev := 0, qid := ⟨0, 0, 0⟩, mode := 0, atime := 0, mtime := 0, length := 0,
    name := "", uid := "", gid := "", muid := "", n_uid := 0, n_gid := 0, n_muid := 0 }

/-- The state of the root fid of user `u`, opened as a directory. -/
def demo_opendir : openfile :=
  { demo_rootfile with dir := some ⟨demo_entries, 0⟩ }

/-- The backend rooted at `/tmp/root` with the read-only flag set. -/
def demo_sc_readonly : fs_softc :=
  { fs_rootpath := "/tmp/root", fs_readonly := true }

/-- The value of `MAXPATHLEN` in `sys/param.h` on FreeBSD. -/
def demo_maxpathlen : Nat := 1024
/-! ## Permission evaluator: lemmas -/

theorem check_access_groups_eq (st : stat) (amode : Nat) (groups : List Nat) :
    check_access_groups st amode groups =
      decide (st.st_gid ∈ groups ∧
        ((amode = L9P_OREAD ∧ st.st_mode &&& S_IRGRP ≠ 0) ∨
         (amode = L9P_OWRITE ∧ st.st_mode &&& S_IWGRP ≠ 0) ∨
         (amode = L9P_OEXEC ∧ st.st_mode &&& S_IXGRP ≠ 0))) := by
  induction groups with
  | nil => simp [check_access_groups]
  | cons g gs ih =>
    unfold check_access_groups
    rw [ih]
    by_cases hg : st.st_gid = g
    · by_cases h1 : amode = L9P_OREAD ∧ st.st_mode &&& S_IRGRP ≠ 0
      · simp [hg, h1]
      · by_cases h2 : amode = L9P_OWRITE ∧ st.st_mode &&& S_IWGRP ≠ 0
        · simp [hg, h2]
        · by_cases h3 : amode = L9P_OEXEC ∧ st.st_mode &&& S_IXGRP ≠ 0
          · simp [hg, h3]
          · simp only [hg, if_true, if_neg h1, if_neg h2, if_neg h3]
            simp [h1, h2, h3]
    · simp only [if_neg hg]
      simp [hg]

/-- C3 (as stated, refuted): the owner of a file of mode 0004 asks for READ.
The user read bit is missing, so the class selection of the specification
denies, but `check_access` falls through to the "other" bits and grants. -/
theorem check_access_owner_falls_through :
    check_access demo_db (demo_stat 7 0o100004 1000 1000) 1000 L9P_OREAD = some true ∧
    ¬ spec_check_access (demo_stat 7 0o100004 1000 1000) 1000
        (demo_db.getgrouplist "u" 1000) L9P_OREAD := by
  decide

/-- C3 (amended): for every host stat, every uid other than 0 that has a
user-database entry and every single access intent in READ, WRITE, EXEC,
`check_access` returns true if and only if the bit for that intent is set in
the user bits and the uid is the owner, or it is set in the other bits, or it
is set in the group bits and the file's gid is in the uid's group list. -/
theorem check_access_single_intent (db : userdb) (st : stat) (uid amode : Nat) (pwd : passwd)
    (huid : uid ≠ 0) (hpwd : db.getpwuid uid = some pwd)
    (hmode : amode = L9P_OREAD ∨ amode = L9P_OWRITE ∨ amode = L9P_OEXEC) :
    check_access db st uid amode = some (decide (
      (st.st_uid = uid ∧ spec_class_allows st.st_mode amode S_IRUSR S_IWUSR S_IXUSR) ∨
      spec_class_allows st.st_mode amode S_IROTH S_IWOTH S_IXOTH ∨
      (st.st_gid ∈ db.getgrouplist pwd.pw_name pwd.pw_gid ∧
        spec_class_allows st.st_mode amode S_IRGRP S_IWGRP S_IXGRP))) := by
  rcases hmode with h | h | h <;> subst h
  · by_cases ho : st.st_uid = uid <;>
    by_cases h1 : st.st_mode &&& S_IRUSR = 0 <;>
    by_cases h4 : st.st_mode &&& S_IROTH = 0 <;>
    simp [check_access, huid, hpwd, check_access_groups_eq, spec_class_allows,
      L9P_OREAD, L9P_OWRITE, L9P_OEXEC, L9P_ORDWR, ho, h1, h4]
  · by_cases ho : st.st_uid = uid <;>
    by_cases h1 : st.st_mode &&& S_IWUSR = 0 <;>
    by_cases h4 : st.st_mode &&& S_IWOTH = 0 <;>
    simp [check_access, huid, hpwd, check_access_groups_eq, spec_class_allows,
      L9P_OREAD, L9P_OWRITE, L9P_OEXEC, L9P_ORDWR, ho, h1, h4]
  · by_cases ho : st.st_uid = uid <;>
    by_cases h1 : st.st_mode &&& S_IXUSR = 0 <;>
    by_cases h4 : st.st_mode &&& S_IXOTH = 0 <;>
    simp [check_access, huid, hpwd, check_access_groups_eq, spec_class_allows,
      L9P_OREAD, L9P_OWRITE, L9P_OEXEC, L9P_ORDWR, ho, h1, h4]

/-- C3 (amended), at a concrete input: a member of the file's group, not the
owner, asks for WRITE on a file of mode 0020. -/
theorem check_access_single_intent_witness :
    check_access demo_db (demo_stat 7 0o100020 0 1000) 1000 L9P_OWRITE = some (decide (
      ((demo_stat 7 0o100020 0 1000).st_uid = 1000 ∧
        spec_class_allows (demo_stat 7 0o100020 0 1000).st_mode L9P_OWRITE
          S_IRUSR S_IWUSR S_IXUSR) ∨
      spec_class_allows (demo_stat 7 0o100020 0 1000).st_mode L9P_OWRITE
        S_IROTH S_IWOTH S_IXOTH ∨
      ((demo_stat 7 0o100020 0 1000).st_gid ∈ demo_db.getgrouplist "u" 1000 ∧
        spec_class_allows (demo_stat 7 0o100020 0 1000).st_mode L9P_OWRITE
          S_IRGRP S_IWGRP S_IXGRP))) :=
  check_access_single_intent demo_db (demo_stat 7 0o100020 0 1000) 1000 L9P_OWRITE
    ⟨"u", 1000, 1000⟩ (by decide) rfl (Or.inr (Or.inl rfl))

/-! ## C4: the intent RDWR -/

/-- C4 (the code at the failing input): the owner of a file of mode 0600 asks
for RDWR.  Both the user read bit and the user write bit are set, so the
specification grants; `check_access` compares `amode` with READ, WRITE and
EXEC only and returns false.  No uid other than 0 is ever granted RDWR. -/
theorem check_access_rdwr_denied :
    check_access demo_db (demo_stat 7 0o100600 1000 1000) 1000 L9P_ORDWR = some false ∧
    spec_check_access (demo_stat 7 0o100600 1000 1000) 1000
      (demo_db.getgrouplist "u" 1000) L9P_ORDWR ∧
    ∀ (db : userdb) (st : stat) (uid : Nat),
      check_access db st (uid + 1) L9P_ORDWR ≠ some true := by
  refine ⟨by decide, by decide, ?_⟩
  intro db st uid
  cases hp : db.getpwuid (uid + 1) <;>
    simp [check_access, check_access_groups_eq, L9P_ORDWR, L9P_OREAD, L9P_OWRITE, L9P_OEXEC, hp]

/-! ## C5: permission monotonicity -/

/-- C7 (as stated, refuted): under plain 9P2000 the user `u` attaches by
name.  The user database maps `u` to uid 1000 and gid 1000, but `fs_attach`
never looks the name up: the fid keeps the uid 0 and the gid 0 of the zeroed
`struct openfile`. -/
theorem fs_attach_ignores_uname :
    demo_db.getpwnam "u" = some ⟨"u", 1000, 1000⟩ ∧
    fs_attach demo_sc demo_db L9P_2000 fresh_fid 0 ⟨"u", "", NOID32⟩ =
      { error := 0,
        fid := { lo_aux := some { dir := none, fd := -1, name := "/tmp/root", uid := 0, gid := 0 },
                 lo_qid := { type := L9P_QTDIR, version := 0, path := 0 } },
        qid := { type := L9P_QTDIR, version := 0, path := 0 } } := by
  decide

/-- C7 (amended): for every attach request, if the protocol variant is
9P2000.u or later and `n_uname` is not the all-ones value, the reply is EPERM
when the user database has no entry for `n_uname`, and otherwise the reply is
0 and the fid's uid and gid are that entry's uid and primary gid; if the
protocol is plain 9P2000 or no numeric id was supplied, the reply is 0 and
the fid's uid and gid are both 0 (`uname` is not consulted).  On success the
fid's path is the configured root and it has no open handle. -/
theorem fs_attach_identity (sc : fs_softc) (db : userdb) (lc_version : Nat)
    (fid : l9p_openfile) (fid_addr : Nat) (req : tattach) :
    (lc_version ≥ L9P_2000U ∧ req.n_uname ≠ NOID32 →
      (db.getpwuid req.n_uname = none →
        (fs_attach sc db lc_version fid fid_addr req).error = EPERM) ∧
      (∀ pwd, db.getpwuid req.n_uname = some pwd →
        (fs_attach sc db lc_version fid fid_addr req).error = 0 ∧
        (fs_attach sc db lc_version fid fid_addr req).fid.lo_aux =
          some { dir := none, fd := -1, name := sc.fs_rootpath,
                 uid := pwd.pw_uid, gid := pwd.pw_gid })) ∧
    (¬ (lc_version ≥ L9P_2000U ∧ req.n_uname ≠ NOID32) →
      (fs_attach sc db lc_version fid fid_addr req).error = 0 ∧
      (fs_attach sc db lc_version fid fid_addr req).fid.lo_aux =
        some { dir := none, fd := -1, name := sc.fs_rootpath, uid := 0, gid := 0 }) ∧
    ((fs_attach sc db lc_version fid fid_addr req).error = 0 →
      ∃ file, (fs_attach sc db lc_version fid fid_addr req).fid.lo_aux = some file ∧
        file.name = sc.fs_rootpath ∧ file.dir = none ∧ file.fd = -1) := by
  refine ⟨?_, ?_, ?_⟩
  · intro h
    refine ⟨?_, ?_⟩
    · intro hn
      simp [fs_attach, h, hn]
    · intro pwd hp
      simp [fs_attach, h, hp, open_fid]
  · intro h
    simp [fs_attach, h, open_fid]
  · intro _
    by_cases h : lc_version ≥ L9P_2000U ∧ req.n_uname ≠ NOID32
    · cases hp : db.getpwuid req.n_uname <;> simp [fs_attach, h, hp, open_fid]
    · simp [fs_attach, h, open_fid]

/-- C7 (amended), at concrete inputs: a 9P2000.u attach with the numeric id
1000, one with the unknown id 7, and a plain 9P2000 attach. -/
theorem fs_attach_identity_witness :
    (fs_attach demo_sc demo_db L9P_2000U fresh_fid 0 ⟨"u", "", 1000⟩).fid.lo_aux =
      some { dir := none, fd := -1, name := "/tmp/root", uid := 1000, gid := 1000 } ∧
    (fs_attach demo_sc demo_db L9P_2000U fresh_fid 0 ⟨"u", "", 7⟩).error = EPERM ∧
    (fs_attach demo_sc demo_db L9P_2000 fresh_fid 0 ⟨"u", "", 1000⟩).fid.lo_aux =
      some { dir := none, fd := -1, name := "/tmp/root", uid := 0, gid := 0 } :=
  ⟨(((fs_attach_identity demo_sc demo_db L9P_2000U fresh_fid 0 ⟨"u", "", 1000⟩).1
      ⟨by decide, by decide⟩).2 ⟨"u", 1000, 1000⟩ rfl).2,
    ((fs_attach_identity demo_sc demo_db L9P_2000U fresh_fid 0 ⟨"u", "", 7⟩).1
      ⟨by decide, by decide⟩).1 rfl,
    ((fs_attach_identity demo_sc demo_db L9P_2000 fresh_fid 0 ⟨"u", "", 1000⟩).2.1
      (by decide)).2⟩

/-! ## `fs_walk`: lemmas -/

theorem utf8ByteSize_append (a b : String) :
    (a ++ b).utf8ByteSize = a.utf8ByteSize + b.utf8ByteSize := by
  cases a with
  | mk as =>
    cases b with
    | mk bs =>
      show String.utf8ByteSize ⟨as ++ bs⟩ = _
      simp [String.utf8ByteSize_mk]

theorem walk_path_append (base : String) (xs ys : List String) :
    walk_path (walk_path base xs) ys = walk_path base (xs ++ ys) := by
  induction xs generalizing base with
  | nil => rfl
  | cons x xs ih => simp [walk_path, ih]

theorem walk_path_size_le (base : String) (ws : List String) :
    base.utf8ByteSize ≤ (walk_path base ws).utf8ByteSize := by
  induction ws generalizing base with
  | nil => exact Nat.le_refl _
  | cons w ws ih =>
    have h := ih (base ++ "/" ++ w)
    simp only [utf8ByteSize_append] at h
    simp only [walk_path]
    omega

theorem fs_walk_loop_ok (M : Nat) (hstat : String → Except Nat stat) (ws : List String)
    (i : Nat) (name : String) (wqid : Nat → l9p_qid) (l : walk_loop)
    (h : fs_walk_loop M hstat ws i name wqid = some l) (hf : l.failed = false) :
    l.name = walk_path name ws ∧ l.i = i + ws.length := by
  induction ws generalizing i name wqid with
  | nil =>
    simp only [fs_walk_loop, Option.some.injEq] at h
    subst h
    simp [walk_path]
  | cons w ws ih =>
    unfold fs_walk_loop at h
    by_cases h1 : (name ++ "/").utf8ByteSize ≥ M
    · simp [h1] at h
    · by_cases h2 : (name ++ "/" ++ w).utf8ByteSize ≥ M
      · simp [h1, h2] at h
      · simp only [if_neg h1, if_neg h2] at h
        cases hs : hstat (name ++ "/" ++ w) with
        | error e =>
          simp only [hs, Option.some.injEq] at h
          subst h
          simp at hf
        | ok buf =>
          simp only [hs] at h
          have := ih _ _ _ h
          simp only [walk_path, List.length_cons]
          exact ⟨this.1, by omega⟩

theorem fs_walk_loop_missing (M : Nat) (hstat : String → Except Nat stat) (ws : List String)
    (k i : Nat) (name : String) (wqid : Nat → l9p_qid) (hk : k < ws.length)
    (hmiss : ∃ e, hstat (walk_path name (ws.take (k + 1))) = .error e)
    (hfit : (walk_path name (ws.take (k + 1))).utf8ByteSize < M) :
    ∃ l, fs_walk_loop M hstat ws i name wqid = some l ∧ l.failed = true := by
  induction ws generalizing k i name wqid with
  | nil => simp at hk
  | cons w ws ih =>
    have hle := walk_path_size_le (name ++ "/" ++ w) (ws.take k)
    have hfit2 : (walk_path (name ++ "/" ++ w) (ws.take k)).utf8ByteSize < M := by
      simpa [walk_path] using hfit
    have hsz := utf8ByteSize_append (name ++ "/") w
    have h1 : ¬ (name ++ "/").utf8ByteSize ≥ M := by omega
    have h2 : ¬ (name ++ "/" ++ w).utf8ByteSize ≥ M := by omega
    unfold fs_walk_loop
    simp only [if_neg h1, if_neg h2]
    cases hs : hstat (name ++ "/" ++ w) with
    | error e => exact ⟨_, rfl, rfl⟩
    | ok buf =>
      simp only []
      cases k with
      | zero =>
        obtain ⟨e, he⟩ := hmiss
        simp [walk_path, hs] at he
      | succ k =>
        apply ih k
        · simpa using hk
        · simpa [walk_path] using hmiss
        · simpa [walk_path] using hfit

theorem fs_walk_loop_present (M : Nat) (hstat : String → Except Nat stat) (ws : List String)
    (i : Nat) (name : String) (wqid : Nat → l9p_qid) (h : walk_present hstat name ws)
    (hfit : (walk_path name ws).utf8ByteSize < M) :
    ∃ l, fs_walk_loop M hstat ws i name wqid = some l ∧ l.failed = false := by
  induction ws generalizing i name wqid with
  | nil => exact ⟨_, rfl, rfl⟩
  | cons w ws ih =>
    have hle := walk_path_size_le (name ++ "/" ++ w) ws
    have hfit2 : (walk_path (name ++ "/" ++ w) ws).utf8ByteSize < M := by
      simpa [walk_path] using hfit
    have hsz := utf8ByteSize_append (name ++ "/") w
    have h1 : ¬ (name ++ "/").utf8ByteSize ≥ M := by omega
    have h2 : ¬ (name ++ "/" ++ w).utf8ByteSize ≥ M := by omega
    unfold fs_walk_loop
    simp only [if_neg h1, if_neg h2]
    obtain ⟨buf, hb⟩ := h 0 (by simp)
    simp only [List.take, walk_path] at hb
    simp only [hb]
    apply ih _ _ _ _ hfit2
    intro k hk
    simpa [walk_path] using h (k + 1) (by simpa using hk)

/-- A walk in which some `stat` fails replies ENOENT and leaves the new fid
object and `nwqid` as they were. -/
theorem fs_walk_failed (M : Nat) (hstat : String → Except Nat stat) (file : openfile)
    (newfid : l9p_openfile) (wname : List String) (resp : rwalk) (l : walk_loop)
    (hfit : file.name.utf8ByteSize < M)
    (h : fs_walk_loop M hstat wname 0 file.name resp.wqid = some l) (hf : l.failed = true) :
    fs_walk M hstat file newfid wname resp =
      some { error := ENOENT, newfid := newfid, resp := { resp with wqid := l.wqid } } := by
  have h0 : ¬ file.name.utf8ByteSize ≥ M := by omega
  simp [fs_walk, h0, h, hf]

/-- A walk in which no `stat` fails replies 0 and binds the new fid to a
fresh state: the joined path, the uid of the source, gid 0, no handle. -/
theorem fs_walk_succeeded (M : Nat) (hstat : String → Except Nat stat) (file : openfile)
    (newfid : l9p_openfile) (wname : List String) (resp : rwalk) (l : walk_loop)
    (hfit : file.name.utf8ByteSize < M)
    (h : fs_walk_loop M hstat wname 0 file.name resp.wqid = some l) (hf : l.failed = false) :
    fs_walk M hstat file newfid wname resp =
      some { error := 0,
             newfid :=
               { newfid with
                 lo_aux := some { dir := none, fd := -1, name := walk_path file.name wname,
                                  uid := file.uid, gid := 0 } },
             resp := { nwqid := wname.length, wqid := l.wqid } } := by
  have h0 : ¬ file.name.utf8ByteSize ≥ M := by omega
  have hl := fs_walk_loop_ok M hstat wname 0 file.name resp.wqid l h hf
  simp [fs_walk, h0, h, hf, hl.1, hl.2, open_fid]

/-- The three outcomes of `fs_walk`: no result, ENOENT with the new fid
object untouched, or 0 with the new fid bound to the joined path. -/
theorem fs_walk_cases (M : Nat) (hstat : String → Except Nat stat) (file : openfile)
    (newfid : l9p_openfile) (wname : List String) (resp : rwalk) :
    fs_walk M hstat file newfid wname resp = none ∨
    (∃ wqid, fs_walk M hstat file newfid wname resp =
      some { error := ENOENT, newfid := newfid, resp := { resp with wqid := wqid } }) ∨
    (∃ wqid, fs_walk M hstat file newfid wname resp =
      some { error := 0,
             newfid :=
               { newfid with
                 lo_aux := some { dir := none, fd := -1, name := walk_path file.name wname,
                                  uid := file.uid, gid := 0 } },
             resp := { nwqid := wname.length, wqid := wqid } }) := by
  by_cases h0 : file.name.utf8ByteSize ≥ M
  · left
    simp [fs_walk, h0]
  · cases h : fs_walk_loop M hstat wname 0 file.name resp.wqid with
    | none =>
      left
      simp [fs_walk, h0, h]
    | some l =>
      cases hf : l.failed
      · exact Or.inr (Or.inr ⟨_, fs_walk_succeeded M hstat file newfid wname resp l
          (by omega) h hf⟩)
      · exact Or.inr (Or.inl ⟨_, fs_walk_failed M hstat file newfid wname resp l
          (by omega) h hf⟩)

/-! ## C6: a walk that meets a missing component -/

/-- C6 (as stated, refuted): the walk `a`, `missing` from the root.  The
first component exists and the second does not (k = 1); the specification
asks for a success carrying one qid, the handler replies ENOENT and leaves
`nwqid` at 0. -/
theorem fs_walk_second_missing_enoent :
    (∃ buf, demo_hstat "/tmp/root/a" = .ok buf) ∧
    demo_hstat "/tmp/root/a/missing" = .error ENOENT ∧
    (fs_walk demo_maxpathlen demo_hstat demo_rootfile fresh_fid ["a", "missing"]
      fresh_rwalk).map walk_result.error = some ENOENT ∧
    (fs_walk demo_maxpathlen demo_hstat demo_rootfile fresh_fid ["a", "missing"]
      fresh_rwalk).map walk_result.error ≠ some 0 ∧
    (fs_walk demo_maxpathlen demo_hstat demo_rootfile fresh_fid ["a", "missing"]
      fresh_rwalk).map (fun r => r.resp.nwqid) = some 0 := by
  exact ⟨⟨_, rfl⟩, rfl, by decide, by decide, by decide⟩

/-- C6 (amended): for every walk request with n > 0 components in which the
component at some index k does not exist on the host (in particular the
first such) and the path joined up to that component fits the buffer
`name[MAXPATHLEN]`, the handler returns, the reply is the error ENOENT, for
k == 0 and for k > 0 alike, and no count of qids is reported; the new fid
object stays as it was (not bound) and the fid table, so the source fid's
state, is unchanged. -/
theorem fs_walk_missing_enoent (MAXPATHLEN : Nat) (sc : fs_softc) (db : userdb)
    (hstat : String → Except Nat stat) (t : fid_table) (fid newfid : Nat)
    (fo : l9p_openfile) (file : openfile) (wname : List String) (k : Nat)
    (hfid : t fid = some fo) (haux : fo.lo_aux = some file) (hk : k < wname.length)
    (hmiss : ∃ e, hstat (walk_path file.name (wname.take (k + 1))) = .error e)
    (hfit : (walk_path file.name (wname.take (k + 1))).utf8ByteSize < MAXPATHLEN) :
    (∀ (nf : l9p_openfile) (resp : rwalk),
      ∃ r, fs_walk MAXPATHLEN hstat file nf wname resp = some r ∧
        r.error = ENOENT ∧ r.newfid = nf ∧ r.resp.nwqid = resp.nwqid) ∧
    dispatch MAXPATHLEN sc db hstat t (.walk fid newfid wname) = some (t, some ENOENT) := by
  have hfit0 : file.name.utf8ByteSize < MAXPATHLEN :=
    Nat.lt_of_le_of_lt (walk_path_size_le file.name (wname.take (k + 1))) hfit
  have hf : ∀ (nf : l9p_openfile) (resp : rwalk), ∃ wqid,
      fs_walk MAXPATHLEN hstat file nf wname resp =
        some { error := ENOENT, newfid := nf, resp := { resp with wqid := wqid } } := by
    intro nf resp
    obtain ⟨l, hl, hlf⟩ :=
      fs_walk_loop_missing MAXPATHLEN hstat wname k 0 file.name resp.wqid hk hmiss hfit
    exact ⟨_, fs_walk_failed MAXPATHLEN hstat file nf wname resp l hfit0 hl hlf⟩
  refine ⟨?_, ?_⟩
  · intro nf resp
    obtain ⟨wqid, h⟩ := hf nf resp
    exact ⟨_, h, rfl, rfl, rfl⟩
  · obtain ⟨wqid, h⟩ := hf (if newfid = fid then fo else fresh_fid) fresh_rwalk
    simp [dispatch, hfid, haux, h, ENOENT]

/-- C6 (amended), at a concrete input: the walk `a`, `missing` from the root
fid 1 to the new fid 2. -/
theorem fs_walk_missing_enoent_witness :
    dispatch demo_maxpathlen demo_sc demo_db demo_hstat
        (Function.update empty_table 1 (some ⟨some demo_rootfile, ⟨L9P_QTDIR, 0, 0⟩⟩))
        (.walk 1 2 ["a", "missing"]) =
      some (Function.update empty_table 1 (some ⟨some demo_rootfile, ⟨L9P_QTDIR, 0, 0⟩⟩),
        some ENOENT) :=
  (fs_walk_missing_enoent demo_maxpathlen demo_sc demo_db demo_hstat
    (Function.update empty_table 1 (some ⟨some demo_rootfile, ⟨L9P_QTDIR, 0, 0⟩⟩)) 1 2
    ⟨some demo_rootfile, ⟨L9P_QTDIR, 0, 0⟩⟩ demo_rootfile ["a", "missing"] 1
    (by simp) rfl (by decide) ⟨ENOENT, rfl⟩ (by decide)).2

/-! ## C8: what a walk clones -/

/-- C8 (the code at the failing input): a zero-component walk from an open
directory fid of uid 1000 and gid 1000.  The new fid has the path and the uid
of the source and no handle, but its gid is 0: `fs_walk` copies `uid` and
leaves `gid` as `open_fid` zeroed it.  The same holds for every walk that
returns and does not reply ENOENT. -/
theorem fs_walk_drops_gid :
    fs_attach demo_sc demo_db L9P_2000U fresh_fid 0 ⟨"u", "", 1000⟩ =
      { error := 0,
        fid := { lo_aux := some demo_rootfile,
                 lo_qid := { type := L9P_QTDIR, version := 0, path := 0 } },
        qid := { type := L9P_QTDIR, version := 0, path := 0 } } ∧
    (fs_walk demo_maxpathlen demo_hstat { demo_rootfile with dir := some ⟨[⟨"a"⟩], 0⟩ }
        fresh_fid [] fresh_rwalk).map walk_result.error = some 0 ∧
    (fs_walk demo_maxpathlen demo_hstat { demo_rootfile with dir := some ⟨[⟨"a"⟩], 0⟩ }
        fresh_fid [] fresh_rwalk).map (fun r => r.newfid.lo_aux) =
      some (some { dir := none, fd := -1, name := "/tmp/root", uid := 1000, gid := 0 }) ∧
    ∀ (MAXPATHLEN : Nat) (hstat : String → Except Nat stat) (file : openfile)
      (newfid : l9p_openfile) (wname : List String) (resp : rwalk),
      fs_walk MAXPATHLEN hstat file newfid wname resp = none ∨
      (fs_walk MAXPATHLEN hstat file newfid wname resp).map walk_result.error =
        some ENOENT ∨
      (fs_walk MAXPATHLEN hstat file newfid wname resp).map (fun r => r.newfid.lo_aux) =
        some (some { dir := none, fd := -1, name := walk_path file.name wname,
                     uid := file.uid, gid := 0 }) := by
  refine ⟨by decide, by decide, by decide, ?_⟩
  intro M hstat file newfid wname resp
  rcases fs_walk_cases M hstat file newfid wname resp with h | ⟨wqid, h⟩ | ⟨wqid, h⟩
  · exact Or.inl h
  · exact Or.inr (Or.inl (by rw [h]; rfl))
  · exact Or.inr (Or.inr (by rw [h]; rfl))

/-! ## C9: the qid type -/

/-- C9 (the code at the failing inputs): the walk `a`, `b.txt` from the
root.  `a` is a directory of mode 0555 and its qid type is 0x60, without the
DIR bit; `b.txt` is a regular file of mode 0644 and its qid type is 0xa0,
with the DIR bit: the type is `st_mode & (S_IFMT >> 8)`, whose bit 0x80 is the
owner's write permission.  The qid paths are the inode numbers.  And
`generate_qid` on a regular file keeps a DIR bit that the qid held before
the call, while it assigns the inode number and version 0; so in a directory
read, where one record is reused for every entry, the regular files that
follow the directory `a` are reported with the DIR bit. -/
theorem qid_type_not_file_type :
    demo_hstat "/tmp/root/a" = .ok (demo_stat 3 0o040555 1000 1000) ∧
    demo_hstat "/tmp/root/a/b.txt" = .ok (demo_stat 4 0o100644 1000 1000) ∧
    S_ISDIR 0o040555 = true ∧ S_ISDIR 0o100644 = false ∧
    (fs_walk demo_maxpathlen demo_hstat demo_rootfile fresh_fid ["a", "b.txt"]
      fresh_rwalk).map walk_result.error = some 0 ∧
    (fs_walk demo_maxpathlen demo_hstat demo_rootfile fresh_fid ["a", "b.txt"]
      fresh_rwalk).map (fun r => r.resp.nwqid) = some 2 ∧
    (fs_walk demo_maxpathlen demo_hstat demo_rootfile fresh_fid ["a", "b.txt"]
      fresh_rwalk).map (fun r => r.resp.wqid 0) =
      some { type := 0x60, version := 0, path := 3 } ∧
    (fs_walk demo_maxpathlen demo_hstat demo_rootfile fresh_fid ["a", "b.txt"]
      fresh_rwalk).map (fun r => r.resp.wqid 1) =
      some { type := 0xa0, version := 0, path := 4 } ∧
    0x60 &&& L9P_QTDIR = 0 ∧ 0xa0 &&& L9P_QTDIR ≠ 0 ∧
    generate_qid (demo_stat 4 0o100644 1000 1000) { type := L9P_QTDIR, version := 5, path := 9 } =
      { type := L9P_QTDIR, version := 0, path := 4 } ∧
    (fs_read_dir demo_db demo_hstat_cwd (fun _ => 40) seekdir_ignore demo_opendir
        ⟨demo_entries, 0⟩ zero_stat zero_l9stat ⟨120, 0, []⟩).req.packed.map
        (fun s => (s.name, s.qid)) =
      [("a", ⟨L9P_QTDIR, 0, 3⟩), ("b.txt", ⟨L9P_QTDIR, 0, 4⟩), ("c.txt", ⟨L9P_QTDIR, 0, 5⟩)] := by
  exact ⟨rfl, rfl, by decide, by decide, by decide, by decide, by decide, by decide,
    by decide, by decide, by decide, by decide⟩

/-! ## C1: where the paths of bound fids lie -/

theorem fs_attach_path (sc : fs_softc) (db : userdb) (lc_version : Nat) (fid : l9p_openfile)
    (fid_addr : Nat) (req : tattach) :
    ∃ file, (fs_attach sc db lc_version fid fid_addr req).fid.lo_aux = some file ∧
      file.name = sc.fs_rootpath := by
  by_cases h : lc_version ≥ L9P_2000U ∧ req.n_uname ≠ NOID32
  · cases hp : db.getpwuid req.n_uname <;> simp [fs_attach, h, hp, open_fid]
  · simp [fs_attach, h, open_fid]

theorem walked_step_keep (c : Nat → List (List String)) (fid newfid : Nat)
    (wname : List String) (f : Nat) (ws : List String) (h : ws ∈ c f) :
    ws ∈ walked_step c (.walk fid newfid wname) f := by
  by_cases hf : f = newfid
  · subst hf
    simp [walked_step, h]
  · simp [walked_step, Function.update_noteq hf, h]

theorem dispatch_walked (M : Nat) (sc : fs_softc) (db : userdb)
    (hstat : String → Except Nat stat) (t : fid_table) (c : Nat → List (List String))
    (r : request) (d : fid_table × Option Nat) (hd : dispatch M sc db hstat t r = some d)
    (ht : ∀ f fo file, t f = some fo → fo.lo_aux = some file →
      ∃ ws, ws ∈ c f ∧ file.name = walk_path sc.fs_rootpath ws) :
    ∀ f fo file, d.1 f = some fo → fo.lo_aux = some file →
      ∃ ws, ws ∈ walked_step c r f ∧ file.name = walk_path sc.fs_rootpath ws := by
  intro f fo file hf haux
  cases r with
  | attach fid fid_addr lc_version req =>
    simp only [dispatch, Option.some.injEq] at hd
    subst hd
    dsimp only at hf
    by_cases hff : f = fid
    · subst hff
      simp only [Function.update_same, Option.some.injEq] at hf
      obtain ⟨file1, h1, h2⟩ := fs_attach_path sc db lc_version fresh_fid fid_addr req
      rw [hf, haux] at h1
      cases h1
      exact ⟨[], by simp [walked_step], h2⟩
    · rw [Function.update_noteq hff] at hf
      obtain ⟨ws, hws, hn⟩ := ht f fo file hf haux
      exact ⟨ws, by simpa [walked_step, Function.update_noteq hff] using hws, hn⟩
  | walk fid newfid wname =>
    have keep : ∀ (t1 : fid_table), t1 = t → t1 f = some fo →
        ∃ ws, ws ∈ walked_step c (.walk fid newfid wname) f ∧
          file.name = walk_path sc.fs_rootpath ws := by
      intro t1 h1 hf1
      subst h1
      obtain ⟨ws, hws, hn⟩ := ht f fo file hf1 haux
      exact ⟨ws, walked_step_keep c fid newfid wname f ws hws, hn⟩
    simp only [dispatch] at hd
    cases hfo : t fid with
    | none =>
      simp only [hfo, Option.some.injEq] at hd
      subst hd
      exact keep _ rfl hf
    | some fo0 =>
      cases ha : fo0.lo_aux with
      | none =>
        simp only [hfo, ha, Option.some.injEq] at hd
        subst hd
        exact keep _ rfl hf
      | some file0 =>
        simp only [hfo, ha] at hd
        rcases fs_walk_cases M hstat file0 (if newfid = fid then fo0 else fresh_fid) wname
          fresh_rwalk with h | ⟨wqid, h⟩ | ⟨wqid, h⟩
        · simp [h] at hd
        · simp only [h, ENOENT, Option.some.injEq] at hd
          rw [if_neg (by decide)] at hd
          simp only [Option.some.injEq] at hd
          subst hd
          exact keep _ rfl hf
        · simp only [h, if_true, Option.some.injEq] at hd
          subst hd
          dsimp only at hf
          by_cases hff : f = newfid
          · subst hff
            simp only [Function.update_same, Option.some.injEq] at hf
            subst hf
            simp only [Option.some.injEq] at haux
            subst haux
            obtain ⟨ws0, hws0, hn0⟩ := ht fid fo0 file0 hfo ha
            refine ⟨ws0 ++ wname, ?_, by simp [hn0, walk_path_append]⟩
            simp only [walked_step, Function.update_same, List.mem_append, List.mem_map]
            exact Or.inr ⟨ws0, hws0, rfl⟩
          · rw [Function.update_noteq hff] at hf
            exact keep _ rfl hf

theorem serve_walked (M : Nat) (sc : fs_softc) (db : userdb)
    (hstat : String → Except Nat stat) (reqs : List request) (t t1 : fid_table)
    (c : Nat → List (List String)) (hs : serve M sc db hstat t reqs = some t1)
    (ht : ∀ f fo file, t f = some fo → fo.lo_aux = some file →
      ∃ ws, ws ∈ c f ∧ file.name = walk_path sc.fs_rootpath ws) :
    ∀ f fo file, t1 f = some fo → fo.lo_aux = some file →
      ∃ ws, ws ∈ walked_from c reqs f ∧ file.name = walk_path sc.fs_rootpath ws := by
  induction reqs generalizing t c with
  | nil =>
    simp only [serve, Option.some.injEq] at hs
    subst hs
    exact ht
  | cons r rs ih =>
    simp only [serve] at hs
    cases hd : dispatch M sc db hstat t r with
    | none => simp [hd] at hs
    | some d =>
      simp only [hd] at hs
      exact ih d.1 (walked_step c r) hs (dispatch_walked M sc db hstat t c r d hd ht)

/-- C1 (as stated, refuted): after an attach of fid 1, the request
`walk (1, 2, [".."])` is answered with 0, not EPERM, and binds fid 2 to
`/tmp/root/..`, a path whose canonical form `/tmp` does not have the root
`/tmp/root` as a prefix. -/
theorem fs_walk_dotdot_escapes :
    ((serve demo_maxpathlen demo_sc demo_db demo_hstat empty_table
        [.attach 1 0 L9P_2000U ⟨"u", "", 1000⟩]).bind
      fun t => dispatch demo_maxpathlen demo_sc demo_db demo_hstat t (.walk 1 2 [".."])).map
        Prod.snd = some (some 0) ∧
    (serve demo_maxpathlen demo_sc demo_db demo_hstat empty_table
        [.attach 1 0 L9P_2000U ⟨"u", "", 1000⟩, .walk 1 2 [".."]]).map (fun t => t 2) =
      some (some { lo_aux := some { dir := none, fd := -1, name := "/tmp/root/..",
                                    uid := 1000, gid := 0 },
                   lo_qid := { type := 0, version := 0, path := 0 } }) ∧
    spec_canonical "/tmp/root/.." = ["tmp"] ∧
    spec_confined "/tmp/root" "/tmp/root/.." = false := by
  exact ⟨by decide, by decide, by decide, by decide⟩

/-- C1 (amended): for every configured root and every sequence of attach and
walk requests (with arbitrary walk components, including "..") that the
handlers serve without writing past the buffer `name[MAXPATHLEN]`, every fid
that ends up bound has as its path the configured root followed by the
components of the requests that led to it (its attach, then the components of
each walk in order), each component after a separator and none resolved: the
root is a prefix of the path as text.  A walk from a bound fid whose
components all exist on the host and whose joined path fits the buffer is
answered with 0 and binds the new fid to the fid's path followed by those
components; so a walk by ".." binds the new fid to the path with "/.."
appended whenever the host's `stat` of that path succeeds. -/
theorem serve_paths_extend_root (MAXPATHLEN : Nat) (sc : fs_softc) (db : userdb)
    (hstat : String → Except Nat stat) (reqs : List request) (t : fid_table) (f : Nat)
    (fo : l9p_openfile) (file : openfile)
    (hs : serve MAXPATHLEN sc db hstat empty_table reqs = some t)
    (hf : t f = some fo) (haux : fo.lo_aux = some file) :
    (∃ ws, ws ∈ walked_components reqs f ∧ file.name = walk_path sc.fs_rootpath ws) ∧
    ∀ (newfid : Nat) (wname : List String), walk_present hstat file.name wname →
      (walk_path file.name wname).utf8ByteSize < MAXPATHLEN →
      dispatch MAXPATHLEN sc db hstat t (.walk f newfid wname) =
        some (Function.update t newfid
          (some { (if newfid = f then fo else fresh_fid) with
                  lo_aux := some { dir := none, fd := -1, name := walk_path file.name wname,
                                   uid := file.uid, gid := 0 } }), some 0) := by
  refine ⟨serve_walked MAXPATHLEN sc db hstat reqs empty_table t (fun _ => []) hs ?_
    f fo file hf haux, ?_⟩
  · intro f fo file h
    simp [empty_table] at h
  · intro newfid wname hp hfit
    have hfit0 : file.name.utf8ByteSize < MAXPATHLEN :=
      Nat.lt_of_le_of_lt (walk_path_size_le file.name wname) hfit
    obtain ⟨l, hl, hlf⟩ :=
      fs_walk_loop_present MAXPATHLEN hstat wname 0 file.name fresh_rwalk.wqid hp hfit
    have hw := fs_walk_succeeded MAXPATHLEN hstat file (if newfid = f then fo else fresh_fid)
      wname fresh_rwalk l hfit0 hl hlf
    simp [dispatch, hf, haux, hw]

/-- C1 (amended), at concrete inputs: fid 4, bound by the walk `a`, `b.txt`
from the attached fid 1, has the path of the root followed by `a` and
`b.txt`; fid 2, bound by the walk `a`, has the path of the root followed by
`a`, and the walk by ".." from it binds fid 3 to `/tmp/root/a/..`. -/
theorem serve_paths_extend_root_witness :
    (∃ ws, ws ∈ walked_components
        [.attach 1 0 L9P_2000U ⟨"u", "", 1000⟩, .walk 1 4 ["a", "b.txt"]] 4 ∧
      "/tmp/root/a/b.txt" = walk_path demo_sc.fs_rootpath ws) ∧
    (∃ ws, ws ∈ walked_components
        [.attach 1 0 L9P_2000U ⟨"u", "", 1000⟩, .walk 1 2 ["a"]] 2 ∧
      "/tmp/root/a" = walk_path demo_sc.fs_rootpath ws) ∧
    dispatch demo_maxpathlen demo_sc demo_db demo_hstat
        (Function.update
          (Function.update empty_table 1
            (some ⟨some demo_rootfile, ⟨L9P_QTDIR, 0, 0⟩⟩))
          2 (some ⟨some ⟨none, -1, "/tmp/root/a", 1000, 0⟩, ⟨0, 0, 0⟩⟩))
        (.walk 2 3 [".."]) =
      some (Function.update
        (Function.update
          (Function.update empty_table 1
            (some ⟨some demo_rootfile, ⟨L9P_QTDIR, 0, 0⟩⟩))
          2 (some ⟨some ⟨none, -1, "/tmp/root/a", 1000, 0⟩, ⟨0, 0, 0⟩⟩))
        3 (some ⟨some ⟨none, -1, "/tmp/root/a/..", 1000, 0⟩, ⟨0, 0, 0⟩⟩), some 0) :=
  ⟨(serve_paths_extend_root demo_maxpathlen demo_sc demo_db demo_hstat
      [.attach 1 0 L9P_2000U ⟨"u", "", 1000⟩, .walk 1 4 ["a", "b.txt"]]
      (Function.update
        (Function.update empty_table 1
          (some ⟨some demo_rootfile, ⟨L9P_QTDIR, 0, 0⟩⟩))
        4 (some ⟨some ⟨none, -1, "/tmp/root/a/b.txt", 1000, 0⟩, ⟨0, 0, 0⟩⟩))
      4 ⟨some ⟨none, -1, "/tmp/root/a/b.txt", 1000, 0⟩, ⟨0, 0, 0⟩⟩
      ⟨none, -1, "/tmp/root/a/b.txt", 1000, 0⟩ rfl (by simp) rfl).1,
    (serve_paths_extend_root demo_maxpathlen demo_sc demo_db demo_hstat
      [.attach 1 0 L9P_2000U ⟨"u", "", 1000⟩, .walk 1 2 ["a"]]
      (Function.update
        (Function.update empty_table 1
          (some ⟨some demo_rootfile, ⟨L9P_QTDIR, 0, 0⟩⟩))
        2 (some ⟨some ⟨none, -1, "/tmp/root/a", 1000, 0⟩, ⟨0, 0, 0⟩⟩))
      2 ⟨some ⟨none, -1, "/tmp/root/a", 1000, 0⟩, ⟨0, 0, 0⟩⟩ ⟨none, -1, "/tmp/root/a", 1000, 0⟩
      rfl (by simp) rfl).1,
    (serve_paths_extend_root demo_maxpathlen demo_sc demo_db demo_hstat
      [.attach 1 0 L9P_2000U ⟨"u", "", 1000⟩, .walk 1 2 ["a"]]
      (Function.update
        (Function.update empty_table 1
          (some ⟨some demo_rootfile, ⟨L9P_QTDIR, 0, 0⟩⟩))
        2 (some ⟨some ⟨none, -1, "/tmp/root/a", 1000, 0⟩, ⟨0, 0, 0⟩⟩))
      2 ⟨some ⟨none, -1, "/tmp/root/a", 1000, 0⟩, ⟨0, 0, 0⟩⟩ ⟨none, -1, "/tmp/root/a", 1000, 0⟩
      rfl (by simp) rfl).2 3 [".."]
      (fun k hk => by
        have hk0 : k = 0 := by simpa using hk
        subst hk0
        exact ⟨_, rfl⟩)
      (by decide)⟩

/-! ## C2: the read-only flag -/

/-- C2: when the backend's read-only flag is true, every create, write and
remove request and every wstat request (so every one that carries a
non-sentinel field) is answered with EROFS; the world, that is the host
state and the log of system calls issued, and the fid's state are the same
after the request as before: no system call is issued. -/
theorem readonly_replies_erofs {H : Type} (ops : hostops H) (db : userdb) (sc : fs_softc)
    (file : openfile) (w : world H) (hro : sc.fs_readonly = true) :
    (∀ req : tcreate, fs_create ops db sc req file w =
      some { error := EROFS, file := file, world := w, count := none }) ∧
    (∀ (iov : List Nat) (count : Nat), fs_write ops sc iov count file w =
      { error := EROFS, file := file, world := w, count := none }) ∧
    fs_remove ops db sc file w =
      some { error := EROFS, file := file, world := w, count := none } ∧
    (∀ l9stat : l9p_stat, fs_wstat ops sc l9stat file w =
      { error := EROFS, file := file, world := w, count := none }) := by
  refine ⟨?_, ?_, ?_, ?_⟩
  · intro req
    simp [fs_create, hro]
  · intro iov count
    simp [fs_write, hro]
  · simp [fs_remove, hro]
  · intro l9stat
    simp [fs_wstat, hro]

/-- C2, at a concrete input: the read-only backend rooted at `/tmp/root` and
the request `create (rootfid, "x", 0644, 0)` of the scenarios, a write, a
remove, and a wstat that renames. -/
theorem readonly_replies_erofs_witness :
    fs_create demo_ops demo_db demo_sc_readonly ⟨"x", 0o644, 0⟩ demo_rootfile demo_world =
      some { error := EROFS, file := demo_rootfile, world := demo_world, count := none } ∧
    fs_write demo_ops demo_sc_readonly [104, 105] 2 demo_rootfile demo_world =
      { error := EROFS, file := demo_rootfile, world := demo_world, count := none } ∧
    fs_remove demo_ops demo_db demo_sc_readonly demo_rootfile demo_world =
      some { error := EROFS, file := demo_rootfile, world := demo_world, count := none } ∧
    fs_wstat demo_ops demo_sc_readonly { zero_l9stat with dev := NOID32, name := "y" }
        demo_rootfile demo_world =
      { error := EROFS, file := demo_rootfile, world := demo_world, count := none } :=
  ⟨(readonly_replies_erofs demo_ops demo_db demo_sc_readonly demo_rootfile demo_world rfl).1 _,
    (readonly_replies_erofs demo_ops demo_db demo_sc_readonly demo_rootfile demo_world rfl).2.1 _ _,
    (readonly_replies_erofs demo_ops demo_db demo_sc_readonly demo_rootfile demo_world rfl).2.2.1,
    (readonly_replies_erofs demo_ops demo_db demo_sc_readonly demo_rootfile demo_world rfl).2.2.2 _⟩

/-! ## C10: reading a directory -/

/-- C10 (the code at the failing inputs): a directory with the entries `a`,
`b.txt`, `c.txt`, each record 40 bytes on the wire.  With a `seekdir` that
ignores the location -1, a read with a window of 32 bytes returns no record
and leaves the cursor after `a`; the next read, with room for two records,
emits `b.txt` and `c.txt`: `a` is never emitted.  With a `seekdir` that
positions absolutely, whatever cursor the location -1 stands for, a read
with a window of 40 bytes does not leave the cursor at the overflowing entry
both when it starts at `a` and when it starts at `b.txt`. -/
theorem fs_read_dir_loses_entry :
    fs_read_dir demo_db demo_hstat_cwd (fun _ => 40) seekdir_ignore demo_opendir
        ⟨demo_entries, 0⟩ zero_stat zero_l9stat ⟨32, 0, []⟩ =
      { error := 0, file := { demo_opendir with dir := some ⟨demo_entries, 1⟩ },
        req := ⟨32, 0, []⟩ } ∧
    (fs_read_dir demo_db demo_hstat_cwd (fun _ => 40) seekdir_ignore demo_opendir
        ⟨demo_entries, 1⟩ zero_stat zero_l9stat ⟨80, 0, []⟩).req.packed.map l9p_stat.name =
      ["b.txt", "c.txt"] ∧
    ∀ pos : Int → Nat,
      (fs_read_dir demo_db demo_hstat_cwd (fun _ => 40) (seekdir_absolute pos) demo_opendir
          ⟨demo_entries, 0⟩ zero_stat zero_l9stat ⟨40, 0, []⟩).file.dir ≠
        some ⟨demo_entries, 1⟩ ∨
      (fs_read_dir demo_db demo_hstat_cwd (fun _ => 40) (seekdir_absolute pos) demo_opendir
          ⟨demo_entries, 1⟩ zero_stat zero_l9stat ⟨40, 0, []⟩).file.dir ≠
        some ⟨demo_entries, 2⟩ := by
  refine ⟨by decide, by decide, ?_⟩
  intro pos
  have h0 : (fs_read_dir demo_db demo_hstat_cwd (fun _ => 40) (seekdir_absolute pos)
      demo_opendir ⟨demo_entries, 0⟩ zero_stat zero_l9stat ⟨40, 0, []⟩).file.dir =
      some ⟨demo_entries, pos (-1)⟩ := rfl
  have h1 : (fs_read_dir demo_db demo_hstat_cwd (fun _ => 40) (seekdir_absolute pos)
      demo_opendir ⟨demo_entries, 1⟩ zero_stat zero_l9stat ⟨40, 0, []⟩).file.dir =
      some ⟨demo_entries, pos (-1)⟩ := rfl
  rw [h0, h1]
  by_cases hp : pos (-1) = 1
  · right
    simp [hp]
  · left
    simp [hp]

end Lib9p
